import Mathlib

/-!
Shallow embedding of the w4113 mixing-console control-plane frontend:
the Config Store glue in src/console.tsx, the Strip / Rack event listeners
in the Svelte components, and the Effect control widgets. Numeric payloads
are embedded as rationals (JS numbers without NaN/Infinity), JS arrays of
strips as Lean lists, and a JS array used as an index-addressed effect
chain as a function from slot index to optional effect.
-/

namespace W4113

/-! ## JS values and loose equality

Config values cross the event bus as JSON scalars. `console.tsx` compares
them with the JS loose-equality operator, so we embed the ECMAScript
IsLooselyEqual algorithm restricted to the primitive values that occur:
undefined, null, booleans, numbers and strings. `none` from `toNumber`
models NaN, and any comparison involving NaN is false.
-/

inductive JSValue where
  | undef
  | null
  | bool (b : Bool)
  | num (q : ℚ)
  | str (s : String)
deriving DecidableEq, Repr

/-- Numeric value of a run of decimal digits. -/
def digitsToNat (cs : List Char) : ℕ :=
  cs.foldl (fun acc c => acc * 10 + (c.toNat - 48)) 0

/-- ECMAScript StringToNumber on an unsigned decimal literal:
an integer part, optionally followed by a dot and a fraction part.
`none` models NaN. -/
def parseDecimal (cs : List Char) : Option ℚ :=
  let p := cs.span (fun c => c.isDigit)
  match p.2 with
  | [] => if p.1.isEmpty then none else some (digitsToNat p.1 : ℚ)
  | c :: fp =>
      if c = '.' && fp.all (fun d => d.isDigit) && !(p.1.isEmpty && fp.isEmpty) then
        some ((digitsToNat p.1 : ℚ) + (digitsToNat fp : ℚ) / (10 : ℚ) ^ fp.length)
      else none

def isJsWhitespace (c : Char) : Bool :=
  c = ' ' || c = '\t' || c = '\n' || c = '\r'

/-- Strip leading and trailing whitespace from a character list. -/
def trimChars (cs : List Char) : List Char :=
  ((cs.dropWhile isJsWhitespace).reverse.dropWhile isJsWhitespace).reverse

/-- ECMAScript StringToNumber: trimmed empty string is 0, otherwise an
optionally signed decimal literal; anything else is NaN (`none`). -/
def jsStringToNumber (s : String) : Option ℚ :=
  match trimChars s.toList with
  | [] => some 0
  | '-' :: rest => (parseDecimal rest).map (fun q => -q)
  | '+' :: rest => parseDecimal rest
  | cs => parseDecimal cs

/-- Numeric comparison where `none` is NaN: NaN compares unequal to everything. -/
def numEq (a b : Option ℚ) : Bool :=
  match a, b with
  | some x, some y => decide (x = y)
  | _, _ => false

/-- ECMAScript IsLooselyEqual (the `==` operator) on primitive values. -/
def looseEq (x y : JSValue) : Bool :=
  match x, y with
  | .undef, .undef => true
  | .null, .null => true
  | .undef, .null => true
  | .null, .undef => true
  | .bool a, .bool b => a == b
  | .bool a, .num q => decide ((if a then (1 : ℚ) else 0) = q)
  | .num q, .bool b => decide (q = (if b then (1 : ℚ) else 0))
  | .bool a, .str s => numEq (some (if a then 1 else 0)) (jsStringToNumber s)
  | .str s, .bool b => numEq (jsStringToNumber s) (some (if b then 1 else 0))
  | .num p, .num q => decide (p = q)
  | .num q, .str s => numEq (some q) (jsStringToNumber s)
  | .str s, .num q => numEq (jsStringToNumber s) (some q)
  | .str a, .str b => a == b
  | _, _ => false

theorem looseEq_refl (v : JSValue) : looseEq v v = true := by
  cases v <;> simp [looseEq]

/-! ## Config Store (src/console.tsx)

Module-level state: `configJSON` (reading an absent key yields undefined)
and `onChangeMap` (at most one listener per key; the listener functions are
opaque, so the state records which keys have one, and an invocation is
recorded as an observable `ListenerCall`). Outbound `react-state-update`
emissions are recorded as `EmittedEvent`s.
-/

structure ConfigState where
  configJSON : String → JSValue
  registered : String → Bool

structure ListenerCall where
  key : String
  value : JSValue
deriving DecidableEq, Repr

structure EmittedEvent where
  key : String
  value : JSValue
deriving DecidableEq, Repr

structure SetConfigResult where
  state : ConfigState
  calls : List ListenerCall
  events : List EmittedEvent

/-- `setConfig(key, value)` from src/console.tsx: reads the original value,
returns early when `value == originalValue` (loose equality); otherwise
invokes the listener registered for the key, if any, and emits one
`react-state-update` event. The body contains no write to `configJSON`. -/
def setConfig (st : ConfigState) (key : String) (value : JSValue) : SetConfigResult :=
  let originalValue := st.configJSON key
  if looseEq value originalValue then ⟨st, [], []⟩
  else
    ⟨st,
     if st.registered key then [⟨key, value⟩] else [],
     [⟨key, value⟩]⟩

/-- The `rust-state-update` listener installed by `stateEventLoop` in
src/console.tsx: its body is exactly `configJSON[key] = value`; it consults
no listener, so the list of listener invocations it produces is empty. -/
def stateUpdateHandler (st : ConfigState) (key : String) (value : JSValue) :
    ConfigState × List ListenerCall :=
  ({ st with configJSON := fun k => if k = key then value else st.configJSON k }, [])

/-- `onChange(key, cb)` from src/console.tsx: registers the (opaque)
callback for the key, overwriting any previous registration. -/
def onChange (st : ConfigState) (key : String) : ConfigState :=
  { st with registered := fun k => if k = key then true else st.registered k }

/-! ## Effects, controls, strips (Strip.svelte, Effect.svelte)

A strip's effect chain is a JS array addressed by slot index; reads beyond
the populated range yield undefined. We embed a chain as a function from
slot index to `Option Effect` (`none` is the null / undefined empty slot),
and a JS indexed write as pointwise update.
-/

structure Control where
  name : String
  kind : String
  min : ℚ
  max : ℚ
  value : ℚ
deriving DecidableEq, Repr

structure Effect where
  name : String
  controls : List Control
deriving DecidableEq, Repr

def Chain := ℕ → Option Effect

def emptyChain : Chain := fun _ => none

/-- JS `chain[i] = e` on the chain array. -/
def chainSet (c : Chain) (i : ℕ) (e : Option Effect) : Chain :=
  fun j => if j = i then e else c j

/-- Payload of the `rust-seteffect` event. -/
structure EffectSetPayload where
  strip : ℤ
  index : ℕ
  effect : Effect

/-- Payload of the `rust-removeeffect` event. The listener in Strip.svelte
reads only `index`; the `strip` field is carried but never consulted. -/
structure EffectRemovePayload where
  strip : ℤ
  index : ℕ

/-- The `rust-seteffect` listener of Strip.svelte, as executed by the
mounted strip component whose `strip_index` prop is `k`: when
`payload.strip != strip_index` (JS loose inequality, numeric here) the
listener logs and returns, leaving the chain untouched; otherwise it
stores `payload.effect` at `payload.index`. The rack renders one component
per strip, with `strip_index` equal to the each-loop position, so applying
the event runs this listener at `k`, `k+1`, ... down the list. -/
def applySetEffectFrom (k : ℕ) (p : EffectSetPayload) : List Chain → List Chain
  | [] => []
  | c :: rest =>
      (if p.strip ≠ (k : ℤ) then c else chainSet c p.index (some p.effect))
        :: applySetEffectFrom (k + 1) p rest

/-- Effect of one `rust-seteffect` event on the whole rack (components are
mounted at positions 0, 1, ...). -/
def applySetEffect (rack : List Chain) (p : EffectSetPayload) : List Chain :=
  applySetEffectFrom 0 p rack

/-- The `rust-removeeffect` listener of Strip.svelte: its body is
`strip.chain[index] = null` with no check of the payload's `strip` field,
and every mounted strip component runs it. -/
def applyRemoveEffect (rack : List Chain) (p : EffectRemovePayload) : List Chain :=
  rack.map (fun c => chainSet c p.index none)

/-! ## Rack (the strips array and its listeners)

`strips` is a JS array. `rust-updatestrip` pushes a new strip object, the
add-strip button pushes a placeholder, `rust-removestrip` runs
`strips.splice(index, 1)`, and `rust-clearstrips` resets to `[]`. JS
`splice(start, 1)` clamps a negative `start` to `max(length + start, 0)`
and a nonnegative one to `min(start, length)`, then deletes one element
when the clamped position is below the length. -/

def removeStrip (strips : List α) (index : ℤ) : List α :=
  let len := strips.length
  let actualStart : ℕ := if index < 0 then (index + len).toNat else min index.toNat len
  if actualStart < len then strips.eraseIdx actualStart else strips

def addStrip (strips : List α) (s : α) : List α := strips ++ [s]

def clearStrips (_strips : List α) : List α := []

inductive RackOp (α : Type) where
  | add (s : α)
  | remove (index : ℤ)
deriving DecidableEq, Repr

def applyRackOp (strips : List α) : RackOp α → List α
  | .add s => addStrip strips s
  | .remove i => removeStrip strips i

def applyRackOps (strips : List α) (ops : List (RackOp α)) : List α :=
  ops.foldl applyRackOp strips

/-- Modelled from the spec: the strip count predicted by the sentence
"the Rack's strip count equals additions minus removals that targeted
valid indices" — a removal is counted when its index was in bounds
(0 <= index < count) at the time it was applied. -/
def specCount (c : ℕ) : List (RackOp α) → ℕ
  | [] => c
  | .add _ :: ops => specCount (c + 1) ops
  | .remove i :: ops => specCount (if 0 ≤ i ∧ i < (c : ℤ) then c - 1 else c) ops

/-- The each-loop of the rack renders strips with `strip_index` equal to
their position: the rendered ordinal positions of a rack. -/
def ordinalPositions (strips : List α) : List ℕ :=
  (strips.enum).map Prod.fst

/-! ## Toggle control (Effect.svelte)

The click handler of a toggle-kind control executes
`control.value = control.value + (1 % control.n_states)`. -/

structure ToggleControl where
  name : String
  value : ℕ
  n_states : ℕ
deriving DecidableEq, Repr

def toggleClick (c : ToggleControl) : ToggleControl :=
  { c with value := c.value + 1 % c.n_states }

def toggleClicks (c : ToggleControl) : ℕ → ToggleControl
  | 0 => c
  | n + 1 => toggleClick (toggleClicks c n)

/-! ## Output gain dial (Output.svelte)

The dial keeps an internal radius `valueR`; the mousemove handler applies
the drag delta times the multiplier 5 and clamps the radius to [0, 1000].
A reactive statement then stores `value = radiusToValue(valueR)` and emits
it in the outbound `svelte-seteffectvalue` event. -/

def radiusToValue (min max value : ℚ) : ℚ :=
  value / 1000 * (max - min) + min

def valueToRadius (min max value : ℚ) : ℚ :=
  (value - min) / (max - min) * 1000

/-- The mousemove handler's update of `valueR`: subtract `diff * 5`, then
clamp above at 1000, then clamp below at 0. -/
def mousemoveValueR (valueR diff : ℚ) : ℚ :=
  let v := valueR - diff * 5
  let v := if v > 1000 then 1000 else v
  if v < 0 then 0 else v

/-! ## Concrete states used to instantiate the theorems -/

def cfgVolume : ConfigState :=
  ⟨fun k => if k = "volume" then .num 5 else .undef, fun k => k == "volume"⟩

def cfgHost : ConfigState :=
  ⟨fun k => if k = "host" then .num 0 else .undef, fun _ => false⟩

def cfgGain : ConfigState :=
  ⟨fun _ => .undef, fun k => k == "gain"⟩

def cfgRate : ConfigState :=
  ⟨fun k => if k = "rate" then .str "0" else .null, fun _ => true⟩

/-! ## Theorems about the Config Store -/

/-- C3: setConfig with a value equal to the one currently stored invokes no
change listener, emits no outbound event and leaves the state unchanged;
setConfig with a value that differs from the stored one (in the sense of
the loose comparison the code performs, the spec's `v2 != current`) invokes
the listener registered for the key exactly once. -/
theorem setConfig_unchanged_noop_changed_notifies_once
    (st : ConfigState) (k : String) (v v₂ : JSValue)
    (hv : v = st.configJSON k)
    (hv₂ : looseEq v₂ (st.configJSON k) = false)
    (hreg : st.registered k = true) :
    ((setConfig st k v).calls = [] ∧ (setConfig st k v).events = []
      ∧ (setConfig st k v).state = st)
    ∧ (setConfig st k v₂).calls = [⟨k, v₂⟩] := by
  constructor
  · have h : looseEq v (st.configJSON k) = true := by rw [hv]; exact looseEq_refl _
    simp [setConfig, h]
  · simp [setConfig, hv₂, hreg]

theorem setConfig_unchanged_noop_changed_notifies_once_witness :
    ((setConfig cfgVolume "volume" (.num 5)).calls = []
      ∧ (setConfig cfgVolume "volume" (.num 5)).events = []
      ∧ (setConfig cfgVolume "volume" (.num 5)).state = cfgVolume)
    ∧ (setConfig cfgVolume "volume" (.num 7)).calls = [⟨"volume", .num 7⟩] :=
  setConfig_unchanged_noop_changed_notifies_once cfgVolume "volume" (.num 5) (.num 7)
    (by decide) (by decide) (by decide)

/-- C4 counterexample: setConfig contains no write to configJSON, so after
setConfig("host", 1) on a state storing 0 under "host", the stored value is
still 0, not 1 as the claim requires. -/
theorem setConfig_does_not_update_map_cex :
    (setConfig cfgHost "host" (.num 1)).state.configJSON "host" = .num 0
    ∧ ¬ ((setConfig cfgHost "host" (.num 1)).state.configJSON "host" = .num 1) := by
  constructor <;> decide

/-- C4 amended: setConfig with a value differing (loosely) from the stored
one invokes the registered listener, if any, and publishes exactly one
change event to the engine, but leaves the local map (the whole state)
unchanged; the local map is only written by the engine's update echo. -/
theorem setConfig_changed_notifies_and_emits_map_unchanged
    (st : ConfigState) (k : String) (v : JSValue)
    (h : looseEq v (st.configJSON k) = false) :
    (setConfig st k v).state = st
    ∧ (setConfig st k v).calls = (if st.registered k then [⟨k, v⟩] else [])
    ∧ (setConfig st k v).events = [⟨k, v⟩] := by
  simp [setConfig, h]

theorem setConfig_changed_notifies_and_emits_map_unchanged_witness :
    (setConfig cfgHost "host" (.num 1)).state = cfgHost
    ∧ (setConfig cfgHost "host" (.num 1)).calls
        = (if cfgHost.registered "host" then [⟨"host", .num 1⟩] else [])
    ∧ (setConfig cfgHost "host" (.num 1)).events = [⟨"host", .num 1⟩] :=
  setConfig_changed_notifies_and_emits_map_unchanged cfgHost "host" (.num 1) (by decide)

/-- C5 counterexample: with a callback registered for "gain", the
rust-state-update handler applied to ("gain", 3) produces no listener
invocation at all, contradicting the claim that the registered callback is
invoked with (key, value). -/
theorem stateUpdateHandler_no_callback_cex :
    cfgGain.registered "gain" = true
    ∧ (stateUpdateHandler cfgGain "gain" (.num 3)).2 = []
    ∧ ¬ ((⟨"gain", .num 3⟩ : ListenerCall) ∈ (stateUpdateHandler cfgGain "gain" (.num 3)).2) := by
  refine ⟨by decide, rfl, by simp [stateUpdateHandler]⟩

/-- C5 amended: the rust-state-update handler writes the payload value
under the payload key into the config map, leaves every other key and the
listener registrations unchanged, and invokes no change-callback. -/
theorem stateUpdateHandler_writes_map_no_callback
    (st : ConfigState) (k j : String) (v : JSValue) :
    (stateUpdateHandler st k v).1.configJSON k = v
    ∧ (j ≠ k → (stateUpdateHandler st k v).1.configJSON j = st.configJSON j)
    ∧ (stateUpdateHandler st k v).1.registered = st.registered
    ∧ (stateUpdateHandler st k v).2 = [] := by
  refine ⟨by simp [stateUpdateHandler], fun h => by simp [stateUpdateHandler, h], rfl, rfl⟩

theorem stateUpdateHandler_writes_map_no_callback_witness :
    (stateUpdateHandler cfgGain "gain" (.num 3)).1.configJSON "gain" = .num 3
    ∧ (stateUpdateHandler cfgGain "gain" (.num 3)).1.configJSON "rate" = .undef
    ∧ (stateUpdateHandler cfgGain "gain" (.num 3)).1.registered = cfgGain.registered
    ∧ (stateUpdateHandler cfgGain "gain" (.num 3)).2 = [] := by
  have h := stateUpdateHandler_writes_map_no_callback cfgGain "gain" "rate" (.num 3)
  exact ⟨h.1, h.2.1 (by decide), h.2.2.1, h.2.2.2⟩

/-- C10: setConfig decides "unchanged" by JS loose equality: whenever the
incoming value is loosely equal to the stored one — including across types,
as with the number 0 and the string "0", or undefined and null — it
invokes no listener and emits no event. -/
theorem setConfig_loose_equality_noop
    (st : ConfigState) (k : String) (v : JSValue)
    (h : looseEq v (st.configJSON k) = true) :
    (setConfig st k v).calls = [] ∧ (setConfig st k v).events = []
    ∧ (setConfig st k v).state = st := by
  simp [setConfig, h]

theorem setConfig_loose_equality_noop_witness :
    looseEq (.num 0) (.str "0") = true
    ∧ (setConfig cfgRate "rate" (.num 0)).calls = []
    ∧ (setConfig cfgRate "rate" (.num 0)).events = []
    ∧ looseEq .undef .null = true
    ∧ (setConfig cfgRate "other" .undef).calls = [] :=
  ⟨by decide,
   (setConfig_loose_equality_noop cfgRate "rate" (.num 0) (by decide)).1,
   (setConfig_loose_equality_noop cfgRate "rate" (.num 0) (by decide)).2.1,
   by decide,
   (setConfig_loose_equality_noop cfgRate "other" .undef (by decide)).1⟩

/-! ## Theorems about the effect listeners -/

def gainEffect : Effect := ⟨"Gain", [⟨"gain", "dial", 0, 100, 50⟩]⟩

def delayEffect : Effect := ⟨"Delay", []⟩

def chainWithDelayAt3 : Chain := chainSet emptyChain 3 (some delayEffect)

theorem applySetEffectFrom_length (k : ℕ) (p : EffectSetPayload) (rack : List Chain) :
    (applySetEffectFrom k p rack).length = rack.length := by
  induction rack generalizing k with
  | nil => rfl
  | cons c rest ih => simp [applySetEffectFrom, ih]

theorem applySetEffectFrom_getElem (k j : ℕ) (p : EffectSetPayload) (rack : List Chain) :
    (applySetEffectFrom k p rack)[j]? =
      rack[j]?.map (fun c =>
        if p.strip ≠ ((k + j : ℕ) : ℤ) then c else chainSet c p.index (some p.effect)) := by
  induction rack generalizing k j with
  | nil => simp [applySetEffectFrom]
  | cons c rest ih =>
    cases j with
    | zero => simp [applySetEffectFrom]
    | succ j =>
      have h := ih (k + 1) j
      simp only [applySetEffectFrom, List.getElem?_cons_succ, h]
      have : k + 1 + j = k + (j + 1) := by omega
      rw [this]

/-- C1: the rust-seteffect listener validates the payload strip index
against each mounted strip component: an event whose strip index matches no
tracked strip leaves the whole rack unchanged, and an event whose strip
index equals a tracked strip's index stores the payload effect at the
payload slot index of exactly that strip's chain, leaving every other
strip untouched. -/
theorem effectSet_discards_or_targets_exactly_one
    (rack : List Chain) (p : EffectSetPayload) :
    ((∀ k, k < rack.length → p.strip ≠ (k : ℤ)) → applySetEffect rack p = rack)
    ∧ (∀ s, s < rack.length → p.strip = (s : ℤ) →
        ((applySetEffect rack p)[s]?.map (fun c => c p.index) = some (some p.effect)
          ∧ ∀ k, k ≠ s → (applySetEffect rack p)[k]? = rack[k]?)) := by
  constructor
  · intro hmiss
    apply List.ext_getElem?
    intro j
    rw [applySetEffect, applySetEffectFrom_getElem]
    by_cases hj : j < rack.length
    · have hne : p.strip ≠ ((j : ℕ) : ℤ) := hmiss j hj
      simp [Nat.zero_add, hne]
    · have : rack[j]? = none := List.getElem?_eq_none (by omega)
      simp [this]
  · intro s hs hstrip
    constructor
    · rw [applySetEffect, applySetEffectFrom_getElem]
      have hsome : rack[s]? = some rack[s] := List.getElem?_eq_getElem hs
      have heq : p.strip = ((0 + s : ℕ) : ℤ) := by simpa using hstrip
      simp [hsome, heq, chainSet]
    · intro k hk
      rw [applySetEffect, applySetEffectFrom_getElem]
      have hne : p.strip ≠ ((k : ℕ) : ℤ) := by
        rw [hstrip]
        intro hck
        exact hk (Nat.cast_inj.mp hck).symm
      simp [Nat.zero_add, hne]

theorem effectSet_discards_or_targets_exactly_one_witness :
    applySetEffect [emptyChain] ⟨3, 2, gainEffect⟩ = [emptyChain]
    ∧ (applySetEffect [emptyChain, emptyChain] ⟨1, 2, gainEffect⟩)[1]?.map
        (fun c => c 2) = some (some gainEffect)
    ∧ (applySetEffect [emptyChain, emptyChain] ⟨1, 2, gainEffect⟩)[0]?
        = [emptyChain, emptyChain][0]? :=
  ⟨(effectSet_discards_or_targets_exactly_one [emptyChain] ⟨3, 2, gainEffect⟩).1
      (by decide),
   ((effectSet_discards_or_targets_exactly_one [emptyChain, emptyChain]
      ⟨1, 2, gainEffect⟩).2 1 (by decide) (by decide)).1,
   ((effectSet_discards_or_targets_exactly_one [emptyChain, emptyChain]
      ⟨1, 2, gainEffect⟩).2 1 (by decide) (by decide)).2 0 (by decide)⟩

/-- C2: the rust-removeeffect listener never reads the payload's strip
field, and every mounted strip component clears the addressed slot.
Evaluating the code on a rack of two strips that both hold a Delay at slot
3, with an event addressed to strip 0, shows that strip 1's slot 3 is also
cleared — the claimed validation does not happen. -/
theorem effectRemoved_ignores_strip_field :
    chainWithDelayAt3 3 = some delayEffect
    ∧ (applyRemoveEffect [chainWithDelayAt3, chainWithDelayAt3]
        ⟨0, 3⟩)[1]?.map (fun c => c 3) = some none := by
  constructor <;> rfl

/-- C8: applying the rust-seteffect event for (strip s, slot i, effect T)
and then the rust-removeeffect event for (strip s, slot i) leaves slot i of
strip s empty. -/
theorem setEffect_then_removeEffect_slot_empty
    (rack : List Chain) (s i : ℕ) (T : Effect)
    (hs : s < rack.length) (_hi : i < 10) :
    (applyRemoveEffect (applySetEffect rack ⟨(s : ℤ), i, T⟩) ⟨(s : ℤ), i⟩)[s]?.map
      (fun c => c i) = some none := by
  have hlen : s < (applySetEffect rack ⟨(s : ℤ), i, T⟩).length := by
    rw [applySetEffect, applySetEffectFrom_length]; exact hs
  have hsome : (applySetEffect rack ⟨(s : ℤ), i, T⟩)[s]? = some (applySetEffect rack ⟨(s : ℤ), i, T⟩)[s] :=
    List.getElem?_eq_getElem hlen
  simp [applyRemoveEffect, hsome, chainSet]

theorem setEffect_then_removeEffect_slot_empty_witness :
    (applyRemoveEffect (applySetEffect [emptyChain] ⟨(0 : ℤ), 3, gainEffect⟩)
      ⟨(0 : ℤ), 3⟩)[0]?.map (fun c => c 3) = some none :=
  setEffect_then_removeEffect_slot_empty [emptyChain] 0 3 gainEffect
    (by decide) (by decide)

/-! ## Theorems about the Rack -/

theorem removeStrip_out_of_bounds (strips : List α) (i : ℤ)
    (h0 : 0 ≤ i) (h : (strips.length : ℤ) ≤ i) :
    removeStrip strips i = strips := by
  unfold removeStrip
  have hneg : ¬ i < 0 := by omega
  have hlen : strips.length ≤ i.toNat := by omega
  have hmin : min i.toNat strips.length = strips.length := by omega
  simp [hneg, hmin]

theorem removeStrip_length_nonneg (strips : List α) (i : ℤ) (h0 : 0 ≤ i) :
    (removeStrip strips i).length =
      if i < (strips.length : ℤ) then strips.length - 1 else strips.length := by
  unfold removeStrip
  have hneg : ¬ i < 0 := by omega
  by_cases hlt : i < (strips.length : ℤ)
  · have htn : i.toNat < strips.length := by omega
    have hmin : min i.toNat strips.length = i.toNat := by omega
    simp [hneg, hmin, htn, hlt, List.length_eraseIdx]
  · have hmin : min i.toNat strips.length = strips.length := by omega
    simp [hneg, hmin, hlt]

theorem applyRackOps_length (strips : List α) (ops : List (RackOp α))
    (h : ∀ i, RackOp.remove i ∈ ops → 0 ≤ i) :
    (applyRackOps strips ops).length = specCount strips.length ops := by
  induction ops generalizing strips with
  | nil => rfl
  | cons op ops ih =>
    have hstep : applyRackOps strips (op :: ops) = applyRackOps (applyRackOp strips op) ops := rfl
    cases op with
    | add s =>
      rw [hstep, ih (applyRackOp strips (.add s)) (fun i hi => h i (List.mem_cons_of_mem _ hi))]
      simp [applyRackOp, addStrip, specCount]
    | remove i =>
      have hi : 0 ≤ i := h i (List.mem_cons_self _ _)
      rw [hstep, ih (applyRackOp strips (.remove i)) (fun j hj => h j (List.mem_cons_of_mem _ hj))]
      show specCount (removeStrip strips i).length ops = _
      rw [specCount]
      congr 1
      rw [removeStrip_length_nonneg strips i hi]
      by_cases hlt : i < (strips.length : ℤ)
      · simp [hlt, hi]
      · simp [hlt, hi]

/-- C6 counterexample: JS splice interprets a negative start as an offset
from the end, so the strip-removal listener applied to the out-of-bounds
index -1 on a one-strip rack removes the strip instead of leaving the
rack unchanged. -/
theorem removeStrip_negative_index_cex :
    ¬ ((0 : ℤ) ≤ -1) ∧ removeStrip ["strip0"] (-1) = ([] : List String) := by
  exact ⟨by decide, rfl⟩

/-- C6 amended (restricted to non-negative indices, as JS splice treats a
negative index as an offset from the end): over any sequence of add and
remove operations from the empty rack whose removal indices are all
non-negative, the strip count equals additions minus removals whose index
was in bounds at the time, the rendered ordinal positions are exactly
0..count-1, and a removal whose index is at or beyond the count leaves the
rack unchanged. -/
theorem rack_count_contiguous_oob_noop (ops : List (RackOp α))
    (h : ∀ i, RackOp.remove i ∈ ops → 0 ≤ i) :
    (applyRackOps [] ops).length = specCount 0 ops
    ∧ ordinalPositions (applyRackOps [] ops) = List.range (applyRackOps [] ops).length
    ∧ (∀ (strips : List α) (i : ℤ), 0 ≤ i → (strips.length : ℤ) ≤ i →
        removeStrip strips i = strips) := by
  refine ⟨?_, ?_, fun strips i h0 hge => removeStrip_out_of_bounds strips i h0 hge⟩
  · simpa using applyRackOps_length ([] : List α) ops h
  · simp [ordinalPositions]

def demoOps : List (RackOp String) :=
  [.add "a", .add "b", .remove 0, .remove 5]

theorem rack_count_contiguous_oob_noop_witness :
    (applyRackOps [] demoOps).length = specCount 0 demoOps
    ∧ ordinalPositions (applyRackOps [] demoOps)
        = List.range (applyRackOps [] demoOps).length
    ∧ removeStrip ["a"] 5 = ["a"] := by
  have h := rack_count_contiguous_oob_noop demoOps
    (by intro i hi; simp [demoOps] at hi; omega)
  exact ⟨h.1, h.2.1, h.2.2 ["a"] 5 (by decide) (by decide)⟩

/-! ## Theorems about the toggle control -/

/-- C7: the toggle click handler executes
`control.value = control.value + (1 % control.n_states)`, which for
n_states = 2 adds 1 on every click without wrapping: starting from the
in-range value 0, two clicks drive the value to 2, outside [0, 2). The
evident intent, cycling through the states with (value + 1) % n_states,
is what the claimed invariant describes. -/
theorem toggle_value_escapes_bounds :
    (⟨"state", 0, 2⟩ : ToggleControl).value < (⟨"state", 0, 2⟩ : ToggleControl).n_states
    ∧ (toggleClicks ⟨"state", 0, 2⟩ 2).value = 2
    ∧ ¬ ((toggleClicks ⟨"state", 0, 2⟩ 2).value < (toggleClicks ⟨"state", 0, 2⟩ 2).n_states) := by
  refine ⟨by decide, by decide, by decide⟩

/-! ## Theorems about the gain dial -/

theorem mousemoveValueR_bounds (valueR diff : ℚ) :
    0 ≤ mousemoveValueR valueR diff ∧ mousemoveValueR valueR diff ≤ 1000 := by
  by_cases h1 : valueR - diff * 5 > 1000
  · have : mousemoveValueR valueR diff = 1000 := by
      simp [mousemoveValueR, h1]
    rw [this]; norm_num
  · by_cases h2 : valueR - diff * 5 < 0
    · have : mousemoveValueR valueR diff = 0 := by simp [mousemoveValueR, h1, h2]
      rw [this]; norm_num
    · have : mousemoveValueR valueR diff = valueR - diff * 5 := by
        simp [mousemoveValueR, h1, h2]
      rw [this]
      constructor <;> linarith

/-- C9: a mousemove always stores (and the reactive statement emits) a
value within the control's bounds: the radius is clamped to [0, 1000]
before radiusToValue maps it affinely onto [min, max], a drag below the
low stop stores exactly min, and a drag past the high stop stores exactly
max. -/
theorem setControlValue_clamps (min max valueR diff : ℚ) (hmm : min ≤ max) :
    (min ≤ radiusToValue min max (mousemoveValueR valueR diff)
      ∧ radiusToValue min max (mousemoveValueR valueR diff) ≤ max)
    ∧ (valueR - diff * 5 < 0 → radiusToValue min max (mousemoveValueR valueR diff) = min)
    ∧ (1000 < valueR - diff * 5 → radiusToValue min max (mousemoveValueR valueR diff) = max) := by
  obtain ⟨h0, h1⟩ := mousemoveValueR_bounds valueR diff
  refine ⟨⟨?_, ?_⟩, ?_, ?_⟩
  · have hq0 : 0 ≤ mousemoveValueR valueR diff / 1000 :=
      div_nonneg h0 (by norm_num)
    have := mul_nonneg hq0 (sub_nonneg.mpr hmm)
    unfold radiusToValue
    linarith
  · have hq1 : mousemoveValueR valueR diff / 1000 ≤ 1 := by
      rw [div_le_one (by norm_num)]; exact h1
    have hq0 : 0 ≤ mousemoveValueR valueR diff / 1000 :=
      div_nonneg h0 (by norm_num)
    have := mul_le_of_le_one_left (sub_nonneg.mpr hmm) hq1
    unfold radiusToValue
    linarith
  · intro hlow
    have hr : mousemoveValueR valueR diff = 0 := by
      have : ¬ valueR - diff * 5 > 1000 := by linarith
      simp [mousemoveValueR, this, hlow]
    rw [hr]
    unfold radiusToValue
    ring
  · intro hhigh
    have hr : mousemoveValueR valueR diff = 1000 := by
      have hgt : valueR - diff * 5 > 1000 := hhigh
      simp [mousemoveValueR, hgt]
    rw [hr]
    unfold radiusToValue
    norm_num

theorem setControlValue_clamps_witness :
    -12 ≤ radiusToValue (-12) 24 (mousemoveValueR 500 0)
    ∧ radiusToValue (-12) 24 (mousemoveValueR 500 0) ≤ 24 :=
  (setControlValue_clamps (-12) 24 500 0 (by norm_num)).1

end W4113
